import Mathlib

/-!
Shallow embedding of the rustymedia DLNA server core
(`src/dlna/server.rs` and `src/dlna/discovery.rs`), together with proofs
checking the natural-language specification against it.

Conventions: Rust `u64` values are modelled as `Nat` (the one place where
wrap-around could occur, the `end+1-start` Content-Length computation, is
the subject of a dedicated no-underflow theorem); byte strings are modelled
as `String`/`List Char` (ASCII-faithful: Rust compares and slices `str` by
UTF-8 bytes, which agrees with per-`Char` code-point comparison on ASCII
data); fallible operations return `Option`.
-/

namespace Rustymedia

/-! ### Generic comparison helpers -/

/-- Three-way comparison on `Nat`, mirroring Rust's `Ord::cmp` on integers. -/
def cmpNat (m n : Nat) : Ordering :=
  if m < n then Ordering.lt else if n < m then Ordering.gt else Ordering.eq

/-- Byte-wise lexicographic comparison, mirroring Rust's `Ord` for `str`
(UTF-8 byte order; identical to code-point order on ASCII data). -/
def lexCmp : List Char → List Char → Ordering
  | [], [] => Ordering.eq
  | [], _ :: _ => Ordering.lt
  | _ :: _, [] => Ordering.gt
  | a :: as, b :: bs =>
    match cmpNat a.toNat b.toNat with
    | Ordering.eq => lexCmp as bs
    | o => o

/-- Boolean starts-with test, mirroring Rust's `str::starts_with`. -/
def strStartsWith (pre s : String) : Bool :=
  List.isPrefixOf pre.data s.data

/-- `strContains hay needle` holds when `needle` occurs contiguously in
`hay`, mirroring "the string contains ...". -/
def strContains (hay needle : String) : Prop :=
  ∃ pre post : String, hay = pre ++ needle ++ post

/-! ### Natural ("human") order on ids

Modelled from the spec: `crate::human_order` is not under `src/`; the spec
says it is a "natural/human string order on id (not strict byte order —
numeric runs inside the id compare by value, e.g. \"ep2\" before
\"ep10\")". We tokenize a string into maximal digit runs (compared by
numeric value; a run is also tagged with its first digit so that a digit
run compared against a non-digit character falls back to the character
comparison the byte order would perform) and single non-digit characters.
-/

/-- Numeric value of a digit run. -/
def natOfDigits (cs : List Char) : Nat :=
  cs.foldl (fun n c => 10 * n + (c.toNat - 48)) 0

/-- A token of the natural order: a digit run (first digit and value) or a
single non-digit character. -/
inductive NatToken where
  | num (c : Char) (v : Nat)
  | sym (c : Char)
deriving DecidableEq

/-- Fuel-indexed tokenizer; with `fuel ≥ length` the fuel never runs out
(each step consumes at least one character). -/
def tokenizeAux : Nat → List Char → List NatToken
  | 0, _ => []
  | _ + 1, [] => []
  | fuel + 1, c :: cs =>
    if c.isDigit then
      NatToken.num c (natOfDigits (c :: cs.takeWhile Char.isDigit)) ::
        tokenizeAux fuel (cs.dropWhile Char.isDigit)
    else
      NatToken.sym c :: tokenizeAux fuel cs

/-- Tokenize a string for the natural order. -/
def tokenize (cs : List Char) : List NatToken :=
  tokenizeAux cs.length cs

/-- Compare two tokens: digit runs by value, anything else by the
(first) character. -/
def cmpTok : NatToken → NatToken → Ordering
  | NatToken.num _ v₁, NatToken.num _ v₂ => cmpNat v₁ v₂
  | NatToken.num c _, NatToken.sym d => cmpNat c.toNat d.toNat
  | NatToken.sym c, NatToken.num d _ => cmpNat c.toNat d.toNat
  | NatToken.sym c, NatToken.sym d => cmpNat c.toNat d.toNat

/-- Lexicographic comparison of token lists. -/
def cmpTokens : List NatToken → List NatToken → Ordering
  | [], [] => Ordering.eq
  | [], _ :: _ => Ordering.lt
  | _ :: _, [] => Ordering.gt
  | x :: xs, y :: ys =>
    match cmpTok x y with
    | Ordering.eq => cmpTokens xs ys
    | o => o

/-- The natural/human comparison on ids (`crate::human_order`). -/
def humanOrder (a b : String) : Ordering :=
  cmpTokens (tokenize a.data) (tokenize b.data)

/-- `a` sorts no later than `b` in the natural order. -/
def humanLe (a b : String) : Prop :=
  humanOrder a b ≠ Ordering.gt

instance : DecidableRel humanLe := fun a b =>
  inferInstanceAs (Decidable (humanOrder a b ≠ Ordering.gt))

/-! ### Media entries (`crate::Object`, external Media Tree contract) -/

/-- File types of media-tree entries (`crate::Type`). -/
inductive FileType where
  | directory
  | video
  | image
  | subtitles
  | other
deriving DecidableEq

/-- A resolved media-tree entry. The Media Tree itself is external to the
core; an entry exposes `id`, `parent_id`, `title`, `file_type`,
`dlna_class` and `prefix()`. `prefix()` is not under `src/`;
modelled from the spec, it is carried as the field `pfx`: "the contiguous
run of support ids prefixed by the item's id-prefix (its sibling
namespace)". -/
structure Entry where
  id : String
  parentId : String
  title : String
  fileType : FileType
  pfx : String
  dlnaClass : String
deriving DecidableEq

/-- True for the file types the Browse handler places into the `support`
partition. -/
def isSupportType : FileType → Bool
  | FileType.image => true
  | FileType.subtitles => true
  | _ => false

/-! ### Browse: classification, sorting, support attachment
(`call_dlna_browse`, server.rs lines 288-381) -/

/-- The classification loop of `call_dlna_browse`: partition children into
containers (Directory), items (Video) and support (Image, Subtitles);
`Other` entries are skipped. -/
def classifyChildren : List Entry → List Entry × List Entry × List Entry
  | [] => ([], [], [])
  | e :: rest =>
    let (cs, is, sup) := classifyChildren rest
    match e.fileType with
    | FileType.directory => (e :: cs, is, sup)
    | FileType.image => (cs, is, e :: sup)
    | FileType.subtitles => (cs, is, e :: sup)
    | FileType.video => (cs, e :: is, sup)
    | FileType.other => (cs, is, sup)

/-- Order used by the three `sort_by(human_order(l.id(), r.id()))` calls. -/
def entryLe (a b : Entry) : Prop :=
  humanLe a.id b.id

instance : DecidableRel entryLe := fun a b =>
  inferInstanceAs (Decidable (humanLe a.id b.id))

/-- A stable sort by `human_order` on ids, modelling `Vec::sort_by`. -/
def sortEntries (l : List Entry) : List Entry :=
  List.insertionSort entryLe l

/-- The three sorted partitions built by `call_dlna_browse`. -/
def browseLists (children : List Entry) : List Entry × List Entry × List Entry :=
  let (cs, is, sup) := classifyChildren children
  (sortEntries cs, sortEntries is, sortEntries sup)

/-- The pre-2021 implementation of Rust's `slice::binary_search_by` (the
one in the toolchains of this code's era): repeatedly split at `len/2`,
recurse right on `Less`, left on `Greater`. `fuel ≥ length + 1` never runs
out, since the slice shrinks at every step. -/
def binarySearchAux {α : Type} (f : α → Ordering) : Nat → Nat → List α → Sum Nat Nat
  | 0, base, _ => Sum.inr base
  | fuel + 1, base, l =>
    let h := l.length / 2
    match l.drop h with
    | [] => Sum.inr base
    | t0 :: _ =>
      match f t0 with
      | Ordering.lt => binarySearchAux f fuel (base + h + 1) (l.drop (h + 1))
      | Ordering.gt => binarySearchAux f fuel base (l.take h)
      | Ordering.eq => Sum.inl (base + h)

/-- Rust `slice::binary_search_by` (Ok index as `inl`, Err insertion point
as `inr`). -/
def binarySearchBy {α : Type} (f : α → Ordering) (l : List α) : Sum Nat Nat :=
  binarySearchAux f (l.length + 1) 0 l

/-- `Result::unwrap_or_else(|e| e)` on a binary-search result. -/
def unwrapEither : Sum Nat Nat → Nat
  | Sum.inl i => i
  | Sum.inr i => i

/-! ### Percent encoding (external `percent_encoding` crate, v1
`DEFAULT_ENCODE_SET`; ASCII-faithful) -/

/-- Uppercase hex digit. -/
def hexDigit (n : Nat) : Char :=
  if n < 10 then Char.ofNat (48 + n) else Char.ofNat (55 + n)

/-- Membership in `percent_encoding::DEFAULT_ENCODE_SET`: controls,
non-ASCII, space, quote, hash, angle brackets, backquote, question mark
and curly brackets. -/
def inDefaultEncodeSet (c : Char) : Bool :=
  c.toNat < 32 || c.toNat > 126 ||
    c = ' ' || c = Char.ofNat 34 || c = '#' || c = '<' || c = '>' ||
    c = Char.ofNat 96 || c = '?' || c = Char.ofNat 123 || c = Char.ofNat 125

/-- Encode one character. -/
def percentEncodeChar (c : Char) : List Char :=
  if inDefaultEncodeSet c then ['%', hexDigit (c.toNat / 16), hexDigit (c.toNat % 16)]
  else [c]

/-- `percent_encoding::percent_encode(.., DEFAULT_ENCODE_SET)`. -/
def percentEncode (s : String) : String :=
  String.mk (s.data.map percentEncodeChar).flatten

/-! ### DIDL-Lite result types (`dlna::types`) -/

/-- A `<res>` element. -/
structure Res where
  protocolInfo : String
  uri : String
deriving DecidableEq

/-- A DIDL-Lite `<container>`. -/
structure Container where
  parentId : String
  id : String
  title : String
  restricted : Bool
  dlnaClass : String
deriving DecidableEq

/-- A DIDL-Lite `<item>`. -/
structure Item where
  parentId : String
  id : String
  title : String
  restricted : Bool
  dlnaClass : String
  res : List Res
deriving DecidableEq

/-- The DIDL-Lite document of a Browse response. -/
structure DidlLite where
  containers : List Container
  items : List Item
deriving DecidableEq

/-- The `BrowseResponse` payload. -/
structure BrowseResponse where
  numberReturned : Nat
  totalMatches : Nat
  updateId : Nat
  result : DidlLite
deriving DecidableEq

/-- The support-attachment scan of `call_dlna_browse` (server.rs lines
351-374): walk the sorted support list from the binary-search position,
stop at the first entry whose id does not start with the item's prefix,
push a `files/<id>` resource for Image entries and nothing for Subtitles.
The Directory/Video/Other arms are `unreachable!()` in the source and are
modelled as `none` (a panic). -/
def scanSupport (base pfx : String) : List Entry → Option (List Res)
  | [] => some []
  | e :: rest =>
    if strStartsWith pfx e.id = false then some []
    else
      match e.fileType with
      | FileType.image =>
        (scanSupport base pfx rest).map
          (fun rs =>
            { protocolInfo := "http-get:*:image/jpeg:*",
              uri := base ++ "/files/" ++ percentEncode e.id } :: rs)
      | FileType.subtitles => scanSupport base pfx rest
      | FileType.directory => none
      | FileType.video => none
      | FileType.other => none

/-- Build one video `<item>`: its own `video/<id>` resource, then the
support resources found by binary-searching the sorted support partition
for the entry's prefix (by `str` byte order) and scanning forward. -/
def buildItem (base : String) (sup : List Entry) (entry : Entry) : Option Item :=
  let url := base ++ "/video/" ++ percentEncode entry.id
  let videoRes : Res := { protocolInfo := "http-get:*:video/x-matroska:*", uri := url }
  let start := unwrapEither (binarySearchBy (fun e => lexCmp e.id.data entry.pfx.data) sup)
  match scanSupport base entry.pfx (sup.drop start) with
  | none => none
  | some extra =>
    some
      { parentId := entry.parentId, id := entry.id, title := entry.title,
        restricted := true, dlnaClass := entry.dlnaClass, res := videoRes :: extra }

/-- Build one `<container>`. -/
def buildContainer (entry : Entry) : Container :=
  { parentId := entry.parentId, id := entry.id, title := entry.title,
    restricted := true, dlnaClass := entry.dlnaClass }

/-- Sequence a panic-propagating map over a list (plumbing for the
`Option` panic model). -/
def mapMOption {α β : Type} (f : α → Option β) : List α → Option (List β)
  | [] => some []
  | x :: l =>
    match f x with
    | none => none
    | some y => (mapMOption f l).map (fun ys => y :: ys)

/-- `call_dlna_browse` on a resolved object, given its children: classify,
sort, and emit the DIDL-Lite result with the fixed
`numberReturned`/`totalMatches`/`updateID` values of 1. `none` models a
panic in an `unreachable!()` arm of the support scan. -/
def callDlnaBrowse (base : String) (children : List Entry) : Option BrowseResponse :=
  let p := browseLists children
  match mapMOption (buildItem base p.2.2) p.2.1 with
  | none => none
  | some items =>
    some
      { numberReturned := 1, totalMatches := 1, updateId := 1,
        result := { containers := p.1.map buildContainer, items := items } }

/-! ### Media handles and the range-aware video handler
(`call_video`, server.rs lines 196-286) -/

/-- A streamable media handle. `content` is the byte sequence available to
read now (`size.available = content.length`); `total` is the final size if
known. `read_all()` streams `content` from offset 0; `read_range(start,
end_exclusive)` streams exactly that byte span. -/
structure MediaHandle where
  content : List Nat
  total : Option Nat
deriving DecidableEq

/-- `Size::available` of the handle. -/
def MediaHandle.available (m : MediaHandle) : Nat :=
  m.content.length

/-- `read_all()`. -/
def MediaHandle.readAll (m : MediaHandle) : List Nat :=
  m.content

/-- `read_range(start, stop)` with `stop` exclusive. -/
def MediaHandle.readRange (m : MediaHandle) (start stop : Nat) : List Nat :=
  (m.content.take stop).drop start

/-- `hyper::header::ByteRangeSpec`: `FromTo(start, end)` (inclusive end),
`AllFrom(start)`, `Last(n)` (suffix length). -/
inductive ByteRangeSpec where
  | fromTo (start stop : Nat)
  | allFrom (start : Nat)
  | last (n : Nat)
deriving DecidableEq

/-- `hyper::header::Range`: a bytes-range list or a non-bytes
(`Unregistered`) range. -/
inductive RangeHeader where
  | bytes (specs : List ByteRangeSpec)
  | unregistered
deriving DecidableEq

/-- The range selection of `call_video` (server.rs lines 225-249): take the
first bytes-range spec; a `FromTo(start, end)` or `AllFrom(start)` with
`start < available` yields `(start, end')` with
`end' = min(end, available-1)` resp. `end' = available-1`; anything else
(no header, non-bytes range, empty list, `Last`, or `start ≥ available`)
yields `none`. -/
def videoRange (available : Nat) (hdr : Option RangeHeader) : Option (Nat × Nat) :=
  match hdr with
  | none => none
  | some RangeHeader.unregistered => none
  | some (RangeHeader.bytes specs) =>
    match specs.head? with
    | none => none
    | some (ByteRangeSpec.fromTo start stop) =>
      if start < available then some (start, min stop (available - 1)) else none
    | some (ByteRangeSpec.allFrom start) =>
      if start < available then some (start, available - 1) else none
    | some (ByteRangeSpec.last _) => none

/-- The response assembled by `call_video` once the media handle is
resolved: HTTP status, the `Content-Range` header (`(start, end')` und
`instance_length`), the `Content-Length` header, and the streamed body. -/
structure VideoResponse where
  status : Nat
  acceptRangesBytes : Bool
  contentRange : Option ((Nat × Nat) × Option Nat)
  contentLength : Option Nat
  body : List Nat
deriving DecidableEq

/-- `call_video`'s response construction (server.rs lines 216-268), given
the resolved media handle and the parsed `Range` header. In the range case:
206 Partial Content, `Content-Range: bytes start-end'/total_or_*`,
`Content-Length = end'+1-start`, body via `read_range(start, end'+1)`.
Otherwise: 200 (hyper's default status), `Content-Length` only when the
total size is known, body via `read_all()`. -/
def callVideoCore (m : MediaHandle) (hdr : Option RangeHeader) : VideoResponse :=
  match videoRange m.available hdr with
  | some (start, stop) =>
    { status := 206
      acceptRangesBytes := true
      contentRange := some ((start, stop), m.total)
      contentLength := some (stop + 1 - start)
      body := m.readRange start (stop + 1) }
  | none =>
    { status := 200
      acceptRangesBytes := true
      contentRange := none
      contentLength := m.total
      body := m.readAll }

/-! ### The `Range` header parser (external hyper 0.11 dependency)

`call_video` reads `req.headers().get::<Range>()`, so which
`ByteRangeSpec`s can reach it is decided by hyper's header parser. The
definitions below model hyper 0.11's `FromStr` impls for `Range` and
`ByteRangeSpec` (comma-split, trim, first-`-` split, `u64` parsing with an
optional leading `+`; a `FromTo` is produced only when `start ≤ end`, and
unparsable list elements are dropped). Numeric overflow of `u64` is not
modelled — the model accepts a superset of the strings Rust accepts, which
only strengthens the universally quantified safety theorem below. -/

/-- Split at the first occurrence of `sep` (Rust `splitn(2, sep)`);
`none` when `sep` does not occur. -/
def splitn2 (sep : Char) : List Char → List Char × Option (List Char)
  | [] => ([], none)
  | c :: cs =>
    if c = sep then ([], some cs)
    else
      let r := splitn2 sep cs
      (c :: r.1, r.2)

/-- Split at every occurrence of `sep` (Rust `split(sep)`). -/
def splitListOn (sep : Char) : List Char → List (List Char)
  | [] => [[]]
  | c :: cs =>
    if c = sep then [] :: splitListOn sep cs
    else
      match splitListOn sep cs with
      | [] => [[c]]
      | h :: t => (c :: h) :: t

/-- ASCII whitespace (model of the characters `str::trim` strips). -/
def isWs (c : Char) : Bool :=
  c = ' ' || c = Char.ofNat 9 || c = Char.ofNat 10 || c = Char.ofNat 13

/-- Rust `str::trim` (ASCII-faithful). -/
def trimChars (l : List Char) : List Char :=
  ((l.dropWhile isWs).reverse.dropWhile isWs).reverse

/-- Parse a non-empty all-digit string. -/
def parseDigits (cs : List Char) : Option Nat :=
  if cs = [] then none
  else if cs.all Char.isDigit then some (natOfDigits cs) else none

/-- Rust `u64::from_str` (modulo overflow): optional leading `+`, then
digits. -/
def parseU64 : List Char → Option Nat
  | '+' :: rest => parseDigits rest
  | cs => parseDigits cs

/-- hyper 0.11 `ByteRangeSpec::from_str`: split at the first `-`;
an empty start yields `Last`, an empty end yields `AllFrom`, and both
present yield `FromTo` only when `start ≤ end`. -/
def parseByteRangeSpec (cs : List Char) : Option ByteRangeSpec :=
  match splitn2 '-' cs with
  | (_, none) => none
  | ([], some e) => (parseU64 e).map ByteRangeSpec.last
  | (s, some []) => (parseU64 s).map ByteRangeSpec.allFrom
  | (s, some e) =>
    match parseU64 s, parseU64 e with
    | some a, some b => if a ≤ b then some (ByteRangeSpec.fromTo a b) else none
    | _, _ => none

/-- One comma-separated element of a `bytes=` list: trimmed, dropped when
blank or unparsable. -/
def parseOneRange (x : List Char) : Option ByteRangeSpec :=
  if trimChars x = [] then none else parseByteRangeSpec (trimChars x)

/-- The spec list of a `bytes=` header value. -/
def parseBytesSpecs (rest : List Char) : List ByteRangeSpec :=
  (splitListOn ',' rest).filterMap parseOneRange

/-- hyper 0.11 `Range::from_str`: `bytes=` followed by a comma-separated
spec list (unparsable or blank elements dropped; an empty result is a parse
error), or a non-empty other unit (an `Unregistered` range). -/
def parseRangeHeader (s : String) : Option RangeHeader :=
  match splitn2 '=' s.data with
  | (_, none) => none
  | (unit, some rest) =>
    if unit = "bytes".data then
      if parseBytesSpecs rest = [] then none
      else some (RangeHeader.bytes (parseBytesSpecs rest))
    else if unit ≠ [] ∧ rest ≠ [] then some RangeHeader.unregistered else none

/-! ### SOAP dispatch (`call_content_soap`, server.rs lines 140-159, and
`respond_soap_fault`, lines 405-413) -/

/-- The `"` character. -/
def quoteChar : Char := Char.ofNat 34

/-- The backslash character. -/
def backslashChar : Char := Char.ofNat 92

/-- Lowercase hex digit. -/
def hexLower (n : Nat) : Char :=
  if n < 10 then Char.ofNat (48 + n) else Char.ofNat (87 + n)

/-- Hex digits of a small code point (enough for ASCII controls). -/
def hexOf (n : Nat) : List Char :=
  if n < 16 then [hexLower n] else [hexLower (n / 16), hexLower (n % 16)]

/-- Rust `Debug` escaping of one character (ASCII-faithful): quote and
backslash are backslash-escaped, newline/carriage-return/tab become
`\n`/`\r`/`\t`, other controls become `\u\x7b..\x7d` escapes, everything
else is unchanged. -/
def escapeDebugChar (c : Char) : List Char :=
  if c = quoteChar then [backslashChar, quoteChar]
  else if c = backslashChar then [backslashChar, backslashChar]
  else if c = Char.ofNat 10 then [backslashChar, 'n']
  else if c = Char.ofNat 13 then [backslashChar, 'r']
  else if c = Char.ofNat 9 then [backslashChar, 't']
  else if c.toNat < 32 then
    backslashChar :: 'u' :: Char.ofNat 123 :: (hexOf c.toNat ++ [Char.ofNat 125])
  else [c]

/-- Rust `{:?}` formatting of a string: quoted, characters escaped. -/
def rustDebug (s : String) : String :=
  String.mk (quoteChar :: ((s.data.map escapeDebugChar).flatten ++ [quoteChar]))

/-- Characters `{:?}` leaves unchanged. -/
def plainDebugChar (c : Char) : Bool :=
  32 ≤ c.toNat && c ≠ quoteChar && c ≠ backslashChar

/-- Rust `str::trim_matches(c)`: strip every leading and trailing `c`. -/
def trimMatches (c : Char) (s : String) : String :=
  String.mk (((s.data.dropWhile (· = c)).reverse.dropWhile (· = c)).reverse)

/-- The SOAP fault response built by `respond_soap_fault`: a fixed
`SOAP-ENV:Client` fault code, the given fault string, and HTTP status 200
(`hyper::Response::new()`'s default status, never overridden on this
path). -/
structure SoapFaultResponse where
  status : Nat
  faultcode : String
  faultstring : String
deriving DecidableEq

/-- `respond_soap_fault(msg)`. -/
def respondSoapFault (msg : String) : SoapFaultResponse :=
  { status := 200, faultcode := "SOAP-ENV:Client", faultstring := msg }

/-- Outcome of `call_content_soap`: a SOAP fault response, or dispatch to
the Browse handler. -/
inductive SoapDispatch where
  | fault (r : SoapFaultResponse)
  | browse
deriving DecidableEq

/-- The ContentDirectory action namespace checked by `call_content_soap`
(48 bytes long; the action name is the slice `[48..]`). -/
def contentDirNs : String := "urn:schemas-upnp-org:service:ContentDirectory:1#"

/-- The action name: the header value with surrounding quotes trimmed and
the 48-byte namespace sliced off. -/
def soapActionName (raw : String) : String :=
  String.mk ((trimMatches quoteChar raw).data.drop 48)

/-- `call_content_soap` (server.rs lines 140-159), up to the dispatched
Browse call: a missing `Soapaction` header, a wrong namespace, or an
action other than `Browse` each produce a SOAP fault; `Browse` dispatches
to `call_dlna_browse`. -/
def callContentSoap (hdr : Option String) : SoapDispatch :=
  match hdr with
  | none => SoapDispatch.fault (respondSoapFault "No Soapaction header.")
  | some raw =>
    let action := trimMatches quoteChar raw
    if strStartsWith contentDirNs action = false then
      SoapDispatch.fault
        (respondSoapFault ("Unknown action namespace: " ++ rustDebug action))
    else
      let name := soapActionName raw
      if name = "Browse" then SoapDispatch.browse
      else SoapDispatch.fault (respondSoapFault ("Unknown action " ++ rustDebug name))

/-! ### The request router (`call_root` and `ServerRef::call`,
server.rs lines 102-138 and 443-453) -/

/-- HTTP request methods, at the granularity the router inspects. -/
inductive Method where
  | get
  | post
  | other
deriving DecidableEq

/-- What the router resolves a request to. `error` is an error future
(decode or Media Tree lookup failure); `ServerRef::call` converts it to a
500 response. `fileStream`/`videoStream` are successful dispatches into
the two streaming handlers (the video status and body are computed by
`callVideoCore`). -/
inductive RouterOutcome where
  | response (status : Nat)
  | fileStream (id : String)
  | videoStream (id : String)
  | error
deriving DecidableEq

/-- The remaining path after the consumed segments, as the decoded id
(`req.decoded_path()`; percent-decoding failures are folded into the
`resolves` oracle below, since both a decode error and a lookup error land
in the same `respond_err` path). -/
def pathOf (segs : List String) : String :=
  String.intercalate "/" segs

/-- `dlna::Request::pop()`: remove and return the next path segment (the
empty string once the path is exhausted). -/
def popSeg : List String → String × List String
  | [] => ("", [])
  | s :: r => (s, r)

/-- `call_root` (server.rs lines 103-121) with its nested dispatchers:
pop the next path segment and route. `resolves` models
`self.0.root.lookup(..).is_ok()` (the external Media Tree);
`browseObjectId` is the `ObjectID` of the SOAP body; a resolvable Browse
dispatch is modelled as the 200 SOAP response (`respond_soap`). -/
def callRoot (resolves : String → Bool) (browseObjectId : String)
    (m : Method) (soapHdr : Option String) (segs : List String) : RouterOutcome :=
  let p := popSeg segs
  let seg := p.1
  let rest := p.2
  if seg = "root.xml" then
    if m ≠ Method.get then RouterOutcome.response 405 else RouterOutcome.response 200
  else if seg = "connection" then
    if (popSeg rest).1 = "desc.xml" then RouterOutcome.response 200
    else RouterOutcome.response 404
  else if seg = "content" then
    if (popSeg rest).1 = "control" then
      match callContentSoap soapHdr with
      | SoapDispatch.fault f => RouterOutcome.response f.status
      | SoapDispatch.browse =>
        if resolves browseObjectId then RouterOutcome.response 200
        else RouterOutcome.error
    else if (popSeg rest).1 = "desc.xml" then RouterOutcome.response 200
    else RouterOutcome.response 404
  else if seg = "files" then
    if resolves (pathOf rest) then RouterOutcome.fileStream (pathOf rest)
    else RouterOutcome.error
  else if seg = "video" then
    if resolves (pathOf rest) then RouterOutcome.videoStream (pathOf rest)
    else RouterOutcome.error
  else RouterOutcome.response 404

/-- `ServerRef::call` (server.rs lines 443-453): run the router and map an
error future to a 500 "Internal Error" response. A successful `files`
stream is a 200 (hyper's default status; `call_files` never overrides it);
a successful `video` stream's status comes from `callVideoCore` and is
supplied by the caller. -/
def serverCall (videoStatus : String → Nat) : RouterOutcome → Nat
  | RouterOutcome.response s => s
  | RouterOutcome.fileStream _ => 200
  | RouterOutcome.videoStream id => videoStatus id
  | RouterOutcome.error => 500

/-! ### The presence beacon (`discovery.rs`) -/

/-- The fixed parts of the NOTIFY message template, split at each
interpolation point of the `format!` string in `make_msg`. -/
def ssdpHead : String := "NOTIFY * HTTP/1.1\r\nHOST: 239.255.255.250:1900\r\n"

/-- "NT: " label. -/
def ntLabel : String := "NT: "

/-- CRLF separator. -/
def crlf : String := "\r\n"

/-- The alive line. -/
def ntsAliveCore : String := "NTS: ssdp:alive"

/-- The location label. -/
def locCore : String := "LOCATION: http://"

/-- The location path. -/
def locSuffix : String := "/root.xml"

/-- The USN label. -/
def usnLabel : String := "USN: "

/-- The cache-control label. -/
def cacheCore : String := "CACHE-CONTROL: max-age="

/-- The advertised `max-age` (1800 seconds in the template). -/
def beaconMaxAge : Nat := 1800

/-- The trailing server line. -/
def serverTail : String :=
  "\r\nSERVER: somesystem, DLNADOC/1.50 UPnP/1.0, rustmedia/1.0\r\n\r\n"

/-- `make_msg(nt, usn)` of `schedule_presence_broadcasts`. -/
def makeMsg (addr nt usn : String) : String :=
  ssdpHead ++ ntLabel ++ nt ++ crlf ++ ntsAliveCore ++ crlf ++ locCore ++ addr ++
    locSuffix ++ crlf ++ usnLabel ++ usn ++ crlf ++ cacheCore ++
    toString beaconMaxAge ++ serverTail

/-- `make_dup(nt)`: USN is `<udn>::<nt>`. `dlna::UDN` is not under `src/`
and is passed as the `udn` parameter. -/
def makeDup (addr udn nt : String) : String :=
  makeMsg addr nt (udn ++ "::" ++ nt)

/-- The five NOTIFY messages of one burst, in the send order of
`broadcast_presence`, paired with their log descriptions. -/
def presenceMessages (addr udn : String) : List (String × String) :=
  [ ("uuid", makeMsg addr udn udn),
    ("root", makeDup addr udn "upnp:rootdevice"),
    ("mediaserver", makeDup addr udn "urn:schemas-upnp-org:device:MediaServer:1"),
    ("connectionmanager", makeDup addr udn "urn:schemas-upnp-org:service:ConnectionManager:1"),
    ("contentdir", makeDup addr udn "urn:schemas-upnp-org:service:ContentDirectory:1") ]

/-- One burst of `broadcast_presence` against a per-message send oracle
(`sendFails i = true` means the `i`-th `socket.send` returns an error):
the `?` operator aborts the burst at the first failed send; a short write
is only a logged warning and does not abort (so the oracle models hard
errors only). Returns the successfully sent messages and whether the burst
completed. -/
def runBurst (sendFails : Nat → Bool) : Nat → List (String × String) → List (String × String) × Bool
  | _, [] => ([], true)
  | i, msg :: rest =>
    if sendFails i then ([], false)
    else
      let r := runBurst sendFails (i + 1) rest
      (msg :: r.1, r.2)

/-- `broadcast_presence()` for one tick. -/
def broadcastPresence (sendFails : Nat → Bool) (addr udn : String) :
    List (String × String) × Bool :=
  runBurst sendFails 0 (presenceMessages addr udn)

/-- The beacon interval (`Duration::from_secs(10)`). -/
def presenceIntervalSecs : Nat := 10

/-- The interval task of `schedule_presence_broadcasts`: every tick runs a
fresh full burst; a failed burst is logged and swallowed (`or_else(Ok)`),
so the stream never terminates and every tick in the window produces a
burst. -/
def scheduleTicks (sendFails : Nat → Nat → Bool) (addr udn : String) (ticks : Nat) :
    List (List (String × String) × Bool) :=
  (List.range ticks).map (fun t => broadcastPresence (sendFails t) addr udn)

/-! ### Concrete example data used by closed theorems and witnesses -/

/-- A video entry with a pure id, for sort examples. -/
def epEx (s : String) : Entry :=
  { id := s, parentId := "", title := s, fileType := FileType.video, pfx := s, dlnaClass := "" }

/-- An `Other` entry. -/
def otherEx : Entry :=
  { id := "o", parentId := "", title := "o", fileType := FileType.other, pfx := "o", dlnaClass := "" }

/-- The video item `ep10` whose sibling-namespace prefix is `ep10.`. -/
def epVideo10 : Entry :=
  { id := "ep10", parentId := "d", title := "ep10", fileType := FileType.video,
    pfx := "ep10.", dlnaClass := "object.item.videoItem" }

/-- Cover art for episode 2. -/
def epImage2 : Entry :=
  { id := "ep2.jpg", parentId := "d", title := "ep2 art", fileType := FileType.image,
    pfx := "ep2.jpg", dlnaClass := "object.item.imageItem" }

/-- Cover art for episode 10; its id starts with `ep10.`, the prefix of
`epVideo10`. -/
def epImage10 : Entry :=
  { id := "ep10.jpg", parentId := "d", title := "ep10 art", fileType := FileType.image,
    pfx := "ep10.jpg", dlnaClass := "object.item.imageItem" }

/-- A ten-byte media handle with known total size. -/
def handleEx : MediaHandle :=
  { content := [10, 11, 12, 13, 14, 15, 16, 17, 18, 19], total := some 10 }

/-- A three-byte media handle of unknown total size (still transcoding). -/
def handleGrowing : MediaHandle :=
  { content := [7, 8, 9], total := none }

end Rustymedia

namespace Rustymedia

/-! ## Helper lemmas -/

/-- `String.mk` data. -/
theorem mk_data (l : List Char) : (String.mk l).data = l := rfl

/-- Appending strings appends their character lists. -/
theorem strData_append (a b : String) : (a ++ b).data = a.data ++ b.data := rfl

/-- String concatenation is associative. -/
theorem strAppend_assoc (a b c : String) : a ++ b ++ c = a ++ (b ++ c) := by
  apply String.ext
  simp [strData_append]

/-- Swapping the arguments of `cmpNat` swaps the ordering. -/
theorem cmpNat_swap (m n : Nat) : cmpNat n m = (cmpNat m n).swap := by
  unfold cmpNat
  rcases Nat.lt_trichotomy m n with h | h | h
  · simp [h, Nat.lt_asymm h, Ordering.swap]
  · subst h
    simp [Nat.lt_irrefl, Ordering.swap]
  · simp [h, Nat.lt_asymm h, Ordering.swap]

/-- Swapping the arguments of `cmpTok` swaps the ordering. -/
theorem cmpTok_swap (x y : NatToken) : cmpTok y x = (cmpTok x y).swap := by
  cases x <;> cases y <;> simp only [cmpTok] <;> exact cmpNat_swap _ _

/-- Swapping the arguments of `cmpTokens` swaps the ordering. -/
theorem cmpTokens_swap : ∀ xs ys : List NatToken, cmpTokens ys xs = (cmpTokens xs ys).swap
  | [], [] => rfl
  | [], _ :: _ => rfl
  | _ :: _, [] => rfl
  | x :: xs, y :: ys => by
    simp only [cmpTokens]
    rw [cmpTok_swap x y]
    cases cmpTok x y <;> simp [Ordering.swap, cmpTokens_swap xs ys]

/-- Swapping the arguments of `humanOrder` swaps the ordering. -/
theorem humanOrder_swap (a b : String) : humanOrder b a = (humanOrder a b).swap :=
  cmpTokens_swap (tokenize a.data) (tokenize b.data)

/-- The natural order is total. -/
theorem humanLe_total (a b : String) : humanLe a b ∨ humanLe b a := by
  by_cases h : humanOrder a b = Ordering.gt
  · right
    unfold humanLe
    rw [humanOrder_swap, h]
    simp [Ordering.swap]
  · exact Or.inl h

/-- The entry order is total. -/
theorem entryLe_total (a b : Entry) : entryLe a b ∨ entryLe b a :=
  humanLe_total a.id b.id

/-- Inserting into an adjacent-sorted list keeps it adjacent-sorted, for
any total relation. -/
theorem chain'_orderedInsert {α : Type} (r : α → α → Prop) [DecidableRel r]
    (total : ∀ a b, r a b ∨ r b a) (a : α) :
    ∀ l : List α, l.Chain' r → (List.orderedInsert r a l).Chain' r
  | [], _ => List.chain'_singleton a
  | b :: l, h => by
    simp only [List.orderedInsert]
    split_ifs with hab
    · exact List.chain'_cons.mpr ⟨hab, h⟩
    · have hba : r b a := (total a b).resolve_left hab
      have htail : (List.orderedInsert r a l).Chain' r :=
        chain'_orderedInsert r total a l (List.Chain'.tail h)
      refine List.chain'_cons'.mpr ⟨?_, htail⟩
      intro y hy
      cases l with
      | nil =>
        simp only [List.orderedInsert, List.head?] at hy
        cases hy
        exact hba
      | cons c l' =>
        simp only [List.orderedInsert] at hy
        split_ifs at hy with hac
        · simp only [List.head?, Option.mem_def, Option.some.injEq] at hy
          subst hy
          exact hba
        · simp only [List.head?, Option.mem_def, Option.some.injEq] at hy
          subst hy
          exact (List.chain'_cons.mp h).1

/-- Insertion sort produces an adjacent-sorted list, for any total
relation. -/
theorem chain'_insertionSort {α : Type} (r : α → α → Prop) [DecidableRel r]
    (total : ∀ a b, r a b ∨ r b a) :
    ∀ l : List α, (List.insertionSort r l).Chain' r
  | [] => List.chain'_nil
  | a :: l => by
    simp only [List.insertionSort]
    exact chain'_orderedInsert r total a _ (chain'_insertionSort r total l)

/-- The classification loop computes the three filters of the child
list. -/
theorem classifyChildren_eq (children : List Entry) :
    classifyChildren children =
      (children.filter (fun e => e.fileType = FileType.directory),
       children.filter (fun e => e.fileType = FileType.video),
       children.filter (fun e => isSupportType e.fileType)) := by
  induction children with
  | nil => rfl
  | cons e rest ih =>
    simp only [classifyChildren, ih]
    cases h : e.fileType <;> simp [List.filter_cons, h, isSupportType]

/-- Membership in the support partition implies a support file type. -/
theorem mem_support_isSupportType (children : List Entry) (e : Entry)
    (h : e ∈ (browseLists children).2.2) : isSupportType e.fileType = true := by
  have hperm : List.Perm (sortEntries (classifyChildren children).2.2)
      (classifyChildren children).2.2 :=
    List.perm_insertionSort entryLe _
  have hmem : e ∈ (classifyChildren children).2.2 := hperm.mem_iff.mp h
  rw [classifyChildren_eq] at hmem
  exact (List.mem_filter.mp hmem).2

/-- The support scan never reaches its `unreachable!()` arms on a list of
support-typed entries. -/
theorem scanSupport_isSome (base pre : String) :
    ∀ l : List Entry, (∀ e ∈ l, isSupportType e.fileType = true) →
      (scanSupport base pre l).isSome = true
  | [], _ => rfl
  | e :: rest, h => by
    have he := h e (List.mem_cons_self e rest)
    have hrest := scanSupport_isSome base pre rest
      (fun x hx => h x (List.mem_cons_of_mem e hx))
    simp only [scanSupport]
    split_ifs with hpre
    · rfl
    · cases hft : e.fileType <;> simp [hft, isSupportType] at he ⊢
      · rcases Option.isSome_iff_exists.mp hrest with ⟨rs, hrs⟩
        simp [hrs]
      · exact hrest

/-- `buildItem` never panics when the support list is support-typed. -/
theorem buildItem_isSome (base : String) (sup : List Entry) (entry : Entry)
    (h : ∀ e ∈ sup, isSupportType e.fileType = true) :
    (buildItem base sup entry).isSome = true := by
  unfold buildItem
  have hdrop : ∀ e ∈ sup.drop
      (unwrapEither (binarySearchBy (fun e => lexCmp e.id.data entry.pfx.data) sup)),
      isSupportType e.fileType = true :=
    fun e he => h e (List.drop_subset _ sup he)
  have hscan := scanSupport_isSome base entry.pfx _ hdrop
  rcases Option.isSome_iff_exists.mp hscan with ⟨rs, hrs⟩
  simp [hrs]

/-- `mapMOption` succeeds when every element does. -/
theorem mapMOption_isSome {α β : Type} (f : α → Option β) :
    ∀ l : List α, (∀ x ∈ l, (f x).isSome = true) → (mapMOption f l).isSome = true
  | [], _ => rfl
  | x :: l, h => by
    have hx := h x (List.mem_cons_self x l)
    rcases Option.isSome_iff_exists.mp hx with ⟨y, hy⟩
    have hrest := mapMOption_isSome f l (fun z hz => h z (List.mem_cons_of_mem x hz))
    rcases Option.isSome_iff_exists.mp hrest with ⟨ys, hys⟩
    simp [mapMOption, hy, hys]

/-- A character needing no `Debug` escaping is left unchanged. -/
theorem escapeDebugChar_plain (c : Char) (h : plainDebugChar c = true) :
    escapeDebugChar c = [c] := by
  unfold plainDebugChar at h
  rcases Bool.and_eq_true_iff.mp h with ⟨h1, hbs⟩
  rcases Bool.and_eq_true_iff.mp h1 with ⟨hge, hq⟩
  have hge' : 32 ≤ c.toNat := by
    simpa using hge
  have hq' : c ≠ quoteChar := by
    simpa using hq
  have hbs' : c ≠ backslashChar := by
    simpa using hbs
  unfold escapeDebugChar
  have h10 : c ≠ Char.ofNat 10 := by
    intro he
    rw [he] at hge'
    simp at hge'
  have h13 : c ≠ Char.ofNat 13 := by
    intro he
    rw [he] at hge'
    simp at hge'
  have h9 : c ≠ Char.ofNat 9 := by
    intro he
    rw [he] at hge'
    simp at hge'
  simp [hq', hbs', h10, h13, h9, Nat.not_lt.mpr hge']

/-- `Debug`-escaping a list of plain characters is the identity. -/
theorem escapeList_plain :
    ∀ l : List Char, l.all plainDebugChar = true → (l.map escapeDebugChar).flatten = l
  | [], _ => rfl
  | c :: l, h => by
    rw [List.all_cons] at h
    rcases Bool.and_eq_true_iff.mp h with ⟨h1, h2⟩
    simp [escapeDebugChar_plain c h1, escapeList_plain l h2]

/-- On strings of plain characters, `{:?}` just adds surrounding
quotes. -/
theorem rustDebug_plain (s : String) (h : s.data.all plainDebugChar = true) :
    rustDebug s = String.mk (quoteChar :: (s.data ++ [quoteChar])) := by
  unfold rustDebug
  rw [escapeList_plain s.data h]

/-- A plain string occurs verbatim inside any message ending in its
`{:?}` form. -/
theorem strContains_debug (pre s : String) (h : s.data.all plainDebugChar = true) :
    strContains (pre ++ rustDebug s) s := by
  refine ⟨pre ++ String.mk [quoteChar], String.mk [quoteChar], ?_⟩
  apply String.ext
  rw [rustDebug_plain s h]
  simp [strData_append, mk_data]

/-- Every NOTIFY message contains its NT line with alive semantics, the
alive line, the LOCATION line and the CACHE-CONTROL line. -/
theorem makeMsg_contains (addr nt usn : String) :
    strContains (makeMsg addr nt usn) ("NT: " ++ nt ++ crlf ++ ntsAliveCore)
    ∧ strContains (makeMsg addr nt usn) "NTS: ssdp:alive"
    ∧ strContains (makeMsg addr nt usn) ("LOCATION: http://" ++ addr ++ "/root.xml")
    ∧ strContains (makeMsg addr nt usn)
        ("CACHE-CONTROL: max-age=" ++ toString beaconMaxAge) := by
  refine ⟨⟨ssdpHead, crlf ++ locCore ++ addr ++ locSuffix ++ crlf ++ usnLabel ++ usn ++
      crlf ++ cacheCore ++ toString beaconMaxAge ++ serverTail, ?_⟩,
    ⟨ssdpHead ++ ntLabel ++ nt ++ crlf, crlf ++ locCore ++ addr ++ locSuffix ++ crlf ++
      usnLabel ++ usn ++ crlf ++ cacheCore ++ toString beaconMaxAge ++ serverTail, ?_⟩,
    ⟨ssdpHead ++ ntLabel ++ nt ++ crlf ++ ntsAliveCore ++ crlf,
      crlf ++ usnLabel ++ usn ++ crlf ++ cacheCore ++ toString beaconMaxAge ++
        serverTail, ?_⟩,
    ⟨ssdpHead ++ ntLabel ++ nt ++ crlf ++ ntsAliveCore ++ crlf ++ locCore ++ addr ++
      locSuffix ++ crlf ++ usnLabel ++ usn ++ crlf, serverTail, ?_⟩⟩ <;>
    simp only [makeMsg, ntLabel, crlf, ntsAliveCore, locCore, locSuffix, usnLabel,
      cacheCore, strAppend_assoc]

/-- A burst with no send failures sends every message. -/
theorem runBurst_all_ok :
    ∀ (l : List (String × String)) (i : Nat), runBurst (fun _ => false) i l = (l, true)
  | [], _ => rfl
  | m :: rest, i => by
    simp [runBurst, runBurst_all_ok rest (i + 1)]

/-- A burst whose first send failure is at index `k` sends exactly the
first `k` messages and reports failure. -/
theorem runBurst_first_failure (sendFails : Nat → Bool) :
    ∀ (l : List (String × String)) (i k : Nat), sendFails (i + k) = true →
      (∀ j, j < k → sendFails (i + j) = false) → k < l.length →
      runBurst sendFails i l = (l.take k, false)
  | [], _, k, _, _, hlen => by simp at hlen
  | msg :: rest, i, 0, hfail, _, _ => by
    simp only [runBurst]
    rw [if_pos (by simpa using hfail)]
    rfl
  | msg :: rest, i, k + 1, hfail, hbefore, hlen => by
    have h0 : sendFails i = false := by simpa using hbefore 0 (Nat.succ_pos k)
    have hrest := runBurst_first_failure sendFails rest (i + 1) k
      (by rw [show i + 1 + k = i + (k + 1) by omega]; exact hfail)
      (fun j hj => by
        rw [show i + 1 + j = i + (j + 1) by omega]
        exact hbefore (j + 1) (by omega))
      (by simpa using hlen)
    simp [runBurst, h0, hrest]

/-- The hyper range parser only produces `FromTo(start, end)` with
`start ≤ end`. -/
theorem parseByteRangeSpec_fromTo_le (cs : List Char) (a b : Nat)
    (h : parseByteRangeSpec cs = some (ByteRangeSpec.fromTo a b)) : a ≤ b := by
  unfold parseByteRangeSpec at h
  split at h
  · exact Option.noConfusion h
  · simp only [Option.map_eq_some'] at h
    obtain ⟨v, -, hv⟩ := h
    exact ByteRangeSpec.noConfusion hv
  · simp only [Option.map_eq_some'] at h
    obtain ⟨v, -, hv⟩ := h
    exact ByteRangeSpec.noConfusion hv
  · split at h
    · split at h
      · simp only [Option.some.injEq, ByteRangeSpec.fromTo.injEq] at h
        obtain ⟨rfl, rfl⟩ := h
        assumption
      · exact Option.noConfusion h
    · exact Option.noConfusion h

/-- Every `FromTo` in a parsed `bytes=` header satisfies `start ≤ end`. -/
theorem parseRangeHeader_bytes_le (raw : String) (specs : List ByteRangeSpec)
    (h : parseRangeHeader raw = some (RangeHeader.bytes specs)) :
    ∀ a b, ByteRangeSpec.fromTo a b ∈ specs → a ≤ b := by
  intro a b hmem
  unfold parseRangeHeader at h
  split at h
  · exact Option.noConfusion h
  · rename_i unitPart restPart heq
    by_cases hunit : unitPart = "bytes".data
    · rw [if_pos hunit] at h
      by_cases hempty : parseBytesSpecs restPart = []
      · rw [if_pos hempty] at h
        exact Option.noConfusion h
      · rw [if_neg hempty] at h
        simp only [Option.some.injEq, RangeHeader.bytes.injEq] at h
        subst h
        unfold parseBytesSpecs at hmem
        obtain ⟨x, -, hfx⟩ := List.mem_filterMap.mp hmem
        unfold parseOneRange at hfx
        split_ifs at hfx with ht
        exact parseByteRangeSpec_fromTo_le _ a b hfx
    · rw [if_neg hunit] at h
      by_cases hne : unitPart ≠ [] ∧ restPart ≠ []
      · rw [if_pos hne] at h
        simp only [Option.some.injEq] at h
        exact RangeHeader.noConfusion h
      · rw [if_neg hne] at h
        exact Option.noConfusion h

/-! ## Claims -/

/-- C4: Browse partitions the resolved children into containers
(Directory), items (Video) and support (Image, Subtitles), silently drops
`Other` entries, and sorts each partition by the natural/human order on
ids, in which numeric runs compare by value (so "ep2" sorts before
"ep10"). -/
theorem c4_classification_and_natural_sort (children : List Entry) :
    List.Perm (browseLists children).1
      (children.filter (fun e => e.fileType = FileType.directory))
    ∧ List.Perm (browseLists children).2.1
      (children.filter (fun e => e.fileType = FileType.video))
    ∧ List.Perm (browseLists children).2.2
      (children.filter (fun e => isSupportType e.fileType))
    ∧ ((browseLists children).1.map Entry.id).Chain' humanLe
    ∧ ((browseLists children).2.1.map Entry.id).Chain' humanLe
    ∧ ((browseLists children).2.2.map Entry.id).Chain' humanLe
    ∧ (∀ e ∈ children, e.fileType = FileType.other →
        e ∉ (browseLists children).1 ∧ e ∉ (browseLists children).2.1 ∧
          e ∉ (browseLists children).2.2)
    ∧ humanOrder "ep2" "ep10" = Ordering.lt
    ∧ (browseLists [epEx "ep1", epEx "ep10", epEx "ep2"]).2.1.map Entry.id =
        ["ep1", "ep2", "ep10"] := by
  have hperm : ∀ l : List Entry, List.Perm (sortEntries l) l :=
    fun l => List.perm_insertionSort entryLe l
  have hchain : ∀ l : List Entry, ((sortEntries l).map Entry.id).Chain' humanLe := by
    intro l
    rw [List.chain'_map Entry.id]
    exact chain'_insertionSort entryLe entryLe_total l
  have hfil := classifyChildren_eq children
  refine ⟨?_, ?_, ?_, hchain _, hchain _, hchain _, ?_, by decide, by decide⟩
  · show List.Perm (sortEntries (classifyChildren children).1) _
    rw [hfil]
    exact hperm _
  · show List.Perm (sortEntries (classifyChildren children).2.1) _
    rw [hfil]
    exact hperm _
  · show List.Perm (sortEntries (classifyChildren children).2.2) _
    rw [hfil]
    exact hperm _
  · intro e _ hother
    refine ⟨fun hmem => ?_, fun hmem => ?_, fun hmem => ?_⟩
    · have := (hperm _).mem_iff.mp hmem
      rw [hfil] at this
      have := (List.mem_filter.mp this).2
      simp [hother] at this
    · have := (hperm _).mem_iff.mp hmem
      rw [hfil] at this
      have := (List.mem_filter.mp this).2
      simp [hother] at this
    · have := (hperm _).mem_iff.mp hmem
      rw [hfil] at this
      have := (List.mem_filter.mp this).2
      simp [hother, isSupportType] at this

/-- C4 witness: on the singleton child list containing an `Other` entry,
the entry appears in none of the three partitions. -/
theorem c4_witness :
    otherEx ∉ (browseLists [otherEx]).1 ∧ otherEx ∉ (browseLists [otherEx]).2.1 ∧
      otherEx ∉ (browseLists [otherEx]).2.2 :=
  (c4_classification_and_natural_sort [otherEx]).2.2.2.2.2.2.1 otherEx
    (List.mem_singleton.mpr rfl) rfl

/-- C9: every entry the Browse handler places into the support partition
has file type Image or Subtitles, and consequently the `unreachable!()`
arms of the support-attachment loop are never executed: `call_dlna_browse`
always produces a response. -/
theorem c9_support_partition_types (base : String) (children : List Entry) :
    (∀ e ∈ (browseLists children).2.2, isSupportType e.fileType = true)
    ∧ (callDlnaBrowse base children).isSome = true := by
  refine ⟨fun e he => mem_support_isSupportType children e he, ?_⟩
  unfold callDlnaBrowse
  have hitems : (mapMOption (buildItem base (browseLists children).2.2)
      (browseLists children).2.1).isSome = true := by
    apply mapMOption_isSome
    intro entry _
    exact buildItem_isSome base _ entry
      (fun e he => mem_support_isSupportType children e he)
  rcases Option.isSome_iff_exists.mp hitems with ⟨items, hi⟩
  simp [hi]

/-- C9 witness: a single Image child lands in the support partition with a
support type and Browse succeeds. -/
theorem c9_witness :
    isSupportType epImage2.fileType = true ∧
      (callDlnaBrowse "http://h" [epImage2]).isSome = true :=
  ⟨(c9_support_partition_types "http://h" [epImage2]).1 epImage2 (by decide),
    (c9_support_partition_types "http://h" [epImage2]).2⟩

/-- C1: a `bytes=start-end` or `bytes=start-` range with
`start < available` yields 206 Partial Content, a `Content-Range` of
`(start, end')` with the instance length `total` (or `*` = `none` when
unknown), `Content-Length = end'+1-start` and a body via
`read_range(start, end'+1)`, where `end' = min(end, available-1)` for a
closed range and `end' = available-1` for an open-ended one; moreover for
`start ≤ end < available` the body is exactly the corresponding slice of
the content and has length `end-start+1`. -/
theorem c1_valid_range_partial_content (m : MediaHandle) (start stop : Nat)
    (rest : List ByteRangeSpec) :
    (start < m.available →
      callVideoCore m (some (RangeHeader.bytes (ByteRangeSpec.fromTo start stop :: rest))) =
        { status := 206, acceptRangesBytes := true,
          contentRange := some ((start, min stop (m.available - 1)), m.total),
          contentLength := some (min stop (m.available - 1) + 1 - start),
          body := m.readRange start (min stop (m.available - 1) + 1) })
    ∧ (start < m.available →
      callVideoCore m (some (RangeHeader.bytes (ByteRangeSpec.allFrom start :: rest))) =
        { status := 206, acceptRangesBytes := true,
          contentRange := some ((start, m.available - 1), m.total),
          contentLength := some (m.available - 1 + 1 - start),
          body := m.readRange start (m.available - 1 + 1) })
    ∧ (start ≤ stop → stop < m.available →
        (callVideoCore m
            (some (RangeHeader.bytes (ByteRangeSpec.fromTo start stop :: rest)))).contentLength
          = some (stop - start + 1)
        ∧ (callVideoCore m
            (some (RangeHeader.bytes (ByteRangeSpec.fromTo start stop :: rest)))).body
          = (m.content.drop start).take (stop - start + 1)
        ∧ (callVideoCore m
            (some (RangeHeader.bytes (ByteRangeSpec.fromTo start stop :: rest)))).body.length
          = stop - start + 1) := by
  refine ⟨?_, ?_, ?_⟩
  · intro h
    simp [callVideoCore, videoRange, h]
  · intro h
    simp [callVideoCore, videoRange, h]
  · intro hle hlt
    have hav : start < m.available := lt_of_le_of_lt hle hlt
    have hmin : min stop (m.available - 1) = stop := min_eq_left (by omega)
    refine ⟨?_, ?_, ?_⟩
    · simp only [callVideoCore, videoRange, List.head?, if_pos hav, hmin]
      congr 1
      omega
    · simp only [callVideoCore, videoRange, List.head?, if_pos hav, hmin,
        MediaHandle.readRange]
      rw [List.drop_take]
      congr 1
      omega
    · simp only [callVideoCore, videoRange, List.head?, if_pos hav, hmin,
        MediaHandle.readRange, List.length_drop, List.length_take]
      have hlen : m.available = m.content.length := rfl
      omega

/-- C1 witness: on a ten-byte handle, the range `bytes=2-5` yields 206
with `Content-Range: bytes 2-5/10`, `Content-Length 4` and the four bytes
`[12, 13, 14, 15]`. -/
theorem c1_witness :
    callVideoCore handleEx (some (RangeHeader.bytes [ByteRangeSpec.fromTo 2 5])) =
      { status := 206, acceptRangesBytes := true,
        contentRange := some ((2, 5), some 10),
        contentLength := some 4,
        body := [12, 13, 14, 15] } := by
  have h := (c1_valid_range_partial_content handleEx 2 5 []).1 (by decide)
  rw [h]
  decide

/-- C3: with no `Range` header, a non-bytes range, a suffix-length range,
or a start at or past `available`, the video handler responds 200 with the
full body from `read_all()`, and `Content-Length` is set exactly when the
total size is known. -/
theorem c3_no_range_full_body (m : MediaHandle) :
    (callVideoCore m none =
      { status := 200, acceptRangesBytes := true, contentRange := none,
        contentLength := m.total, body := m.readAll })
    ∧ (callVideoCore m (some RangeHeader.unregistered) =
      { status := 200, acceptRangesBytes := true, contentRange := none,
        contentLength := m.total, body := m.readAll })
    ∧ (∀ (n : Nat) (rest : List ByteRangeSpec),
        callVideoCore m (some (RangeHeader.bytes (ByteRangeSpec.last n :: rest))) =
          { status := 200, acceptRangesBytes := true, contentRange := none,
            contentLength := m.total, body := m.readAll })
    ∧ (∀ (start stop : Nat) (rest : List ByteRangeSpec), m.available ≤ start →
        callVideoCore m (some (RangeHeader.bytes (ByteRangeSpec.fromTo start stop :: rest))) =
          { status := 200, acceptRangesBytes := true, contentRange := none,
            contentLength := m.total, body := m.readAll })
    ∧ (∀ (start : Nat) (rest : List ByteRangeSpec), m.available ≤ start →
        callVideoCore m (some (RangeHeader.bytes (ByteRangeSpec.allFrom start :: rest))) =
          { status := 200, acceptRangesBytes := true, contentRange := none,
            contentLength := m.total, body := m.readAll })
    ∧ ((callVideoCore m none).contentLength.isSome ↔ m.total.isSome) := by
  refine ⟨rfl, rfl, fun n rest => rfl, ?_, ?_, ?_⟩
  · intro start stop rest h
    simp [callVideoCore, videoRange, Nat.not_lt.mpr h]
  · intro start rest h
    simp [callVideoCore, videoRange, Nat.not_lt.mpr h]
  · simp [callVideoCore, videoRange]

/-- C3 witness: on a three-byte still-growing handle of unknown total, a
range starting at byte 5 degrades to the 200 full-body path with no
`Content-Length`. -/
theorem c3_witness :
    callVideoCore handleGrowing (some (RangeHeader.bytes [ByteRangeSpec.fromTo 5 9])) =
      { status := 200, acceptRangesBytes := true, contentRange := none,
        contentLength := none, body := [7, 8, 9] } := by
  have h := (c3_no_range_full_body handleGrowing).2.2.2.1 5 9 [] (by decide)
  rw [h]
  decide

/-- C5: SOAP control faults. A missing `SOAPACTION` header yields the
fixed fault "No Soapaction header."; a wrong namespace or an action other
than `Browse` yields a fault whose fault string carries the offending
action name (for names without characters that `Debug` formatting
escapes, the name occurs verbatim in the fault string); all faults carry
HTTP status 200, not an error status; `Browse` in the right namespace
dispatches to the Browse handler. -/
theorem c5_soap_action_faults (raw : String) :
    (callContentSoap none =
      SoapDispatch.fault
        { status := 200, faultcode := "SOAP-ENV:Client",
          faultstring := "No Soapaction header." })
    ∧ (strStartsWith contentDirNs (trimMatches quoteChar raw) = false →
        callContentSoap (some raw) =
          SoapDispatch.fault
            { status := 200, faultcode := "SOAP-ENV:Client",
              faultstring :=
                "Unknown action namespace: " ++ rustDebug (trimMatches quoteChar raw) }
        ∧ ((trimMatches quoteChar raw).data.all plainDebugChar = true →
            strContains
              ("Unknown action namespace: " ++ rustDebug (trimMatches quoteChar raw))
              (trimMatches quoteChar raw)))
    ∧ (strStartsWith contentDirNs (trimMatches quoteChar raw) = true →
        soapActionName raw ≠ "Browse" →
        callContentSoap (some raw) =
          SoapDispatch.fault
            { status := 200, faultcode := "SOAP-ENV:Client",
              faultstring := "Unknown action " ++ rustDebug (soapActionName raw) }
        ∧ ((soapActionName raw).data.all plainDebugChar = true →
            strContains ("Unknown action " ++ rustDebug (soapActionName raw))
              (soapActionName raw)))
    ∧ (strStartsWith contentDirNs (trimMatches quoteChar raw) = true →
        soapActionName raw = "Browse" →
        callContentSoap (some raw) = SoapDispatch.browse) := by
  refine ⟨rfl, ?_, ?_, ?_⟩
  · intro h
    refine ⟨?_, fun hp => strContains_debug _ _ hp⟩
    simp [callContentSoap, respondSoapFault, h]
  · intro h hne
    refine ⟨?_, fun hp => strContains_debug _ _ hp⟩
    simp [callContentSoap, respondSoapFault, h, soapActionName] at hne ⊢
    simp [hne]
  · intro h hb
    simp [callContentSoap, respondSoapFault, h, soapActionName] at hb ⊢
    simp [hb]

/-- C5 witness: the header value `bad#Act` is outside the ContentDirectory
namespace; the response is a 200 SOAP fault whose fault string contains
`bad#Act`. -/
theorem c5_witness :
    callContentSoap (some "bad#Act") =
      SoapDispatch.fault
        { status := 200, faultcode := "SOAP-ENV:Client",
          faultstring :=
            "Unknown action namespace: " ++ rustDebug (trimMatches quoteChar "bad#Act") }
    ∧ strContains
        ("Unknown action namespace: " ++ rustDebug (trimMatches quoteChar "bad#Act"))
        (trimMatches quoteChar "bad#Act") := by
  have h := (c5_soap_action_faults "bad#Act").2.1 (by decide)
  exact ⟨h.1, h.2 (by decide)⟩

/-- C6 counterexample: a `GET files/x` request whose id the Media Tree
cannot resolve produces HTTP 500, not the claimed 404 — the lookup failure
propagates as an error future to `ServerRef::call`'s catch-all. -/
theorem c6_counterexample :
    serverCall (fun _ => 0)
        (callRoot (fun _ => false) "" Method.get none ["files", "x"]) = 500
    ∧ serverCall (fun _ => 0)
        (callRoot (fun _ => false) "" Method.get none ["files", "x"]) ≠ 404 := by
  decide

/-- C6 (amended): every unmatched route — an unknown top-level segment,
the empty path, and any path under `connection` or `content` whose next
popped segment matches none of that subtree's arms (including the bare
`/connection` and `/content`, whose exhausted `pop()` yields the empty
string) — gets HTTP 404, while a request naming an id the Media Tree
cannot resolve — `GET files/<id>`, `GET video/<id>`, or a Browse
`ObjectID` — yields HTTP 500: the lookup error propagates to
`ServerRef::call`, which converts every handler error into a 500
"Internal Error" response. -/
theorem c6_unmatched_404_unresolved_500 (resolves : String → Bool) (oid : String)
    (m : Method) (hdr : Option String) (vstat : String → Nat)
    (seg : String) (rest : List String) :
    (seg ∉ ["root.xml", "connection", "content", "files", "video"] →
      serverCall vstat (callRoot resolves oid m hdr (seg :: rest)) = 404)
    ∧ ((popSeg rest).1 ≠ "desc.xml" →
        serverCall vstat (callRoot resolves oid m hdr ("connection" :: rest)) = 404)
    ∧ ((popSeg rest).1 ≠ "control" → (popSeg rest).1 ≠ "desc.xml" →
        serverCall vstat (callRoot resolves oid m hdr ("content" :: rest)) = 404)
    ∧ (resolves (pathOf rest) = false →
        serverCall vstat (callRoot resolves oid m hdr ("files" :: rest)) = 500
        ∧ serverCall vstat (callRoot resolves oid m hdr ("video" :: rest)) = 500)
    ∧ (callContentSoap hdr = SoapDispatch.browse → resolves oid = false →
        serverCall vstat
          (callRoot resolves oid m hdr ("content" :: "control" :: rest)) = 500)
    ∧ serverCall vstat (callRoot resolves oid m hdr []) = 404 := by
  refine ⟨?_, ?_, ?_, ?_, ?_, rfl⟩
  · intro h
    simp only [List.mem_cons, List.mem_singleton, not_or] at h
    obtain ⟨h1, h2, h3, h4, h5, -⟩ := h
    simp [callRoot, popSeg, serverCall, h1, h2, h3, h4, h5]
  · intro hne
    cases rest with
    | nil => simp [callRoot, popSeg, serverCall]
    | cons s2 rest2 =>
      simp only [popSeg] at hne
      simp [callRoot, popSeg, serverCall, hne]
  · intro hne1 hne2
    cases rest with
    | nil => simp [callRoot, popSeg, serverCall]
    | cons s2 rest2 =>
      simp only [popSeg] at hne1 hne2
      simp [callRoot, popSeg, serverCall, hne1, hne2]
  · intro h
    constructor
    · simp [callRoot, popSeg, serverCall, h]
    · simp [callRoot, popSeg, serverCall, h]
  · intro hb h
    simp [callRoot, popSeg, serverCall, hb, h]

/-- C6 witness: with a Media Tree that resolves nothing, the unknown
routes `/bogus`, `/content/bogus` and the bare `/connection` all give 404,
and `content/control` carrying a well-formed Browse action on an
unresolvable `ObjectID` gives 500. -/
theorem c6_witness :
    serverCall (fun _ => 0)
        (callRoot (fun _ => false) "x" Method.post (some (contentDirNs ++ "Browse"))
          ["bogus"]) = 404
    ∧ serverCall (fun _ => 0)
        (callRoot (fun _ => false) "x" Method.post (some (contentDirNs ++ "Browse"))
          ["content", "bogus"]) = 404
    ∧ serverCall (fun _ => 0)
        (callRoot (fun _ => false) "x" Method.post (some (contentDirNs ++ "Browse"))
          ["connection"]) = 404
    ∧ serverCall (fun _ => 0)
        (callRoot (fun _ => false) "x" Method.post (some (contentDirNs ++ "Browse"))
          ["content", "control"]) = 500 := by
  have h1 := c6_unmatched_404_unresolved_500 (fun _ => false) "x" Method.post
    (some (contentDirNs ++ "Browse")) (fun _ => 0) "bogus" []
  have h2 := c6_unmatched_404_unresolved_500 (fun _ => false) "x" Method.post
    (some (contentDirNs ++ "Browse")) (fun _ => 0) "content" ["bogus"]
  have h3 := c6_unmatched_404_unresolved_500 (fun _ => false) "x" Method.post
    (some (contentDirNs ++ "Browse")) (fun _ => 0) "connection" []
  exact ⟨h1.1 (by decide), h2.2.2.1 (by decide) (by decide),
    h3.2.1 (by decide), h1.2.2.2.2.1 (by decide) rfl⟩

/-- C7: every NOTIFY message of a burst carries `NTS: ssdp:alive`, a
`LOCATION` of `http://<addr>/root.xml` and `CACHE-CONTROL: max-age=1800`;
the burst consists of exactly the five fixed messages (uuid, rootdevice,
MediaServer:1, ContentDirectory:1, ConnectionManager:1); the max-age is at
least three times the 10-second interval; and every tick of the interval
task emits the full burst. -/
theorem c7_presence_beacon (addr udn : String) (ticks : Nat) :
    (presenceMessages addr udn).length = 5
    ∧ (presenceMessages addr udn).map Prod.fst =
        ["uuid", "root", "mediaserver", "connectionmanager", "contentdir"]
    ∧ (∀ nt ∈ ["upnp:rootdevice", "urn:schemas-upnp-org:device:MediaServer:1",
          "urn:schemas-upnp-org:service:ContentDirectory:1",
          "urn:schemas-upnp-org:service:ConnectionManager:1"],
        ∃ p ∈ presenceMessages addr udn,
          strContains p.2 ("NT: " ++ nt ++ crlf ++ ntsAliveCore))
    ∧ (∃ p ∈ presenceMessages addr udn,
        strContains p.2 ("NT: " ++ udn ++ crlf ++ ntsAliveCore))
    ∧ (∀ p ∈ presenceMessages addr udn,
        strContains p.2 "NTS: ssdp:alive"
        ∧ strContains p.2 ("LOCATION: http://" ++ addr ++ "/root.xml")
        ∧ strContains p.2 ("CACHE-CONTROL: max-age=" ++ toString beaconMaxAge))
    ∧ beaconMaxAge ≥ 3 * presenceIntervalSecs
    ∧ broadcastPresence (fun _ => false) addr udn = (presenceMessages addr udn, true)
    ∧ (∀ t, t < ticks →
        (scheduleTicks (fun _ _ => false) addr udn ticks)[t]? =
          some (presenceMessages addr udn, true)) := by
  refine ⟨rfl, rfl, ?_, ?_, ?_, by decide, ?_, ?_⟩
  · intro nt hnt
    simp only [List.mem_cons, List.not_mem_nil, or_false] at hnt
    rcases hnt with rfl | rfl | rfl | rfl
    · exact ⟨("root", makeDup addr udn "upnp:rootdevice"),
        by simp [presenceMessages], (makeMsg_contains addr _ _).1⟩
    · exact ⟨("mediaserver", makeDup addr udn "urn:schemas-upnp-org:device:MediaServer:1"),
        by simp [presenceMessages], (makeMsg_contains addr _ _).1⟩
    · exact ⟨("contentdir", makeDup addr udn "urn:schemas-upnp-org:service:ContentDirectory:1"),
        by simp [presenceMessages], (makeMsg_contains addr _ _).1⟩
    · exact ⟨("connectionmanager",
          makeDup addr udn "urn:schemas-upnp-org:service:ConnectionManager:1"),
        by simp [presenceMessages], (makeMsg_contains addr _ _).1⟩
  · exact ⟨("uuid", makeMsg addr udn udn),
      by simp [presenceMessages], (makeMsg_contains addr udn udn).1⟩
  · intro p hp
    simp only [presenceMessages, makeDup, List.mem_cons, List.not_mem_nil,
      or_false] at hp
    rcases hp with rfl | rfl | rfl | rfl | rfl <;>
      exact ⟨(makeMsg_contains addr _ _).2.1, (makeMsg_contains addr _ _).2.2.1,
        (makeMsg_contains addr _ _).2.2.2⟩
  · show runBurst (fun _ => false) 0 (presenceMessages addr udn) = _
    rw [runBurst_all_ok]
  · intro t ht
    unfold scheduleTicks
    rw [List.getElem?_map, List.getElem?_range ht]
    rfl

/-- C7 witness: the first message of a concrete beacon's burst is present
and the interval stream has a first tick. -/
theorem c7_witness :
    (∃ p ∈ presenceMessages "1.2.3.4:80" "uuid:X",
      strContains p.2 ("NT: " ++ "uuid:X" ++ crlf ++ ntsAliveCore))
    ∧ (scheduleTicks (fun _ _ => false) "1.2.3.4:80" "uuid:X" 3)[0]? =
        some (presenceMessages "1.2.3.4:80" "uuid:X", true) := by
  have h := c7_presence_beacon "1.2.3.4:80" "uuid:X" 3
  exact ⟨h.2.2.2.1, h.2.2.2.2.2.2.2 0 (by decide)⟩

/-- C10: a failed send aborts the rest of the burst (`?` propagation): if
the `k`-th send of a tick fails first, exactly the first `k` messages were
sent and the burst reports failure; the interval task swallows the error,
so every tick still runs and each tick attempts the full five-message
burst afresh. -/
theorem c10_send_failure_aborts_burst (addr udn : String)
    (sendFails : Nat → Bool) (k : Nat) (hk : k < 5)
    (hfail : sendFails k = true) (hbefore : ∀ j, j < k → sendFails j = false) :
    broadcastPresence sendFails addr udn = ((presenceMessages addr udn).take k, false)
    ∧ (∀ (fails : Nat → Nat → Bool) (t n : Nat), t < n →
        (scheduleTicks fails addr udn n)[t]? =
          some (broadcastPresence (fails t) addr udn))
    ∧ (∀ (fails : Nat → Nat → Bool) (n : Nat),
        (scheduleTicks fails addr udn n).length = n) := by
  refine ⟨?_, ?_, ?_⟩
  · show runBurst sendFails 0 (presenceMessages addr udn) = _
    have h5 : (presenceMessages addr udn).length = 5 := rfl
    exact runBurst_first_failure sendFails (presenceMessages addr udn) 0 k
      (by simpa using hfail) (fun j hj => by simpa using hbefore j hj) (by omega)
  · intro fails t n ht
    unfold scheduleTicks
    rw [List.getElem?_map, List.getElem?_range ht]
    rfl
  · intro fails n
    unfold scheduleTicks
    simp

/-- C10 witness: when the third send of a burst fails, only the uuid and
rootdevice messages go out, the burst reports failure, and the next tick
of a two-tick window still attempts a full burst. -/
theorem c10_witness :
    broadcastPresence (fun i => i == 2) "a" "u" =
      ((presenceMessages "a" "u").take 2, false)
    ∧ (scheduleTicks (fun _ _ => false) "a" "u" 2)[1]? =
        some (broadcastPresence (fun _ => false) "a" "u") := by
  have h := c10_send_failure_aborts_burst "a" "u" (fun i => i == 2) 2
    (by decide) (by decide) (by decide)
  exact ⟨h.1, h.2.1 (fun _ _ => false) 1 2 (by decide)⟩

/-- C8: for every `Range` header string the hyper parser accepts and every
range the video handler then accepts (`start < available`), the
`Content-Length` computation `end'+1-start` cannot underflow: the accepted
start never exceeds `end'+1` (a client-sent `bytes=end-start` with
`end < start` is already rejected by the parser and degrades to the
no-range path). -/
theorem c8_content_length_no_underflow (raw : String) (m : MediaHandle) (s e : Nat)
    (h : videoRange m.available (parseRangeHeader raw) = some (s, e)) :
    s ≤ e + 1 ∧ e + 1 - s + s = e + 1 := by
  suffices hs : s ≤ e + 1 by
    refine ⟨hs, by omega⟩
  rcases hp : parseRangeHeader raw with _ | hdr
  · rw [hp] at h
    exact Option.noConfusion h
  · rw [hp] at h
    cases hdr with
    | unregistered => exact Option.noConfusion h
    | bytes specs =>
      simp only [videoRange] at h
      rcases hh : specs.head? with _ | spec
      · rw [hh] at h
        exact Option.noConfusion h
      · rw [hh] at h
        cases spec with
        | last n => exact Option.noConfusion h
        | fromTo a b =>
          have h2 : (if a < m.available then
              some (a, min b (m.available - 1)) else none) = some (s, e) := h
          by_cases hav : a < m.available
          · rw [if_pos hav] at h2
            simp only [Option.some.injEq, Prod.mk.injEq] at h2
            obtain ⟨rfl, rfl⟩ := h2
            have hmem : ByteRangeSpec.fromTo a b ∈ specs :=
              List.mem_of_mem_head? (by simp [hh])
            have hab : a ≤ b := parseRangeHeader_bytes_le raw specs hp a b hmem
            have hle : a ≤ min b (m.available - 1) :=
              Nat.le_min.mpr ⟨hab, by omega⟩
            exact Nat.le_succ_of_le hle
          · rw [if_neg hav] at h2
            exact Option.noConfusion h2
        | allFrom a =>
          have h2 : (if a < m.available then
              some (a, m.available - 1) else none) = some (s, e) := h
          by_cases hav : a < m.available
          · rw [if_pos hav] at h2
            simp only [Option.some.injEq, Prod.mk.injEq] at h2
            obtain ⟨rfl, rfl⟩ := h2
            omega
          · rw [if_neg hav] at h2
            exact Option.noConfusion h2

/-- C8 witness: the parsed header `bytes=2-700` against ten available
bytes is accepted as `(2, 9)`, whose Content-Length computation does not
underflow; the reversed range `bytes=5-2` fails to parse at all. -/
theorem c8_witness :
    videoRange handleEx.available (parseRangeHeader "bytes=2-700") = some (2, 9)
    ∧ (2 ≤ 9 + 1 ∧ 9 + 1 - 2 + 2 = 9 + 1)
    ∧ parseRangeHeader "bytes=5-2" = none := by
  refine ⟨by decide, ?_, by decide⟩
  exact c8_content_length_no_underflow "bytes=2-700" handleEx 2 9 (by decide)

/-- C2: evaluation of `call_dlna_browse` at the failing input. The Image
child `ep10.jpg` starts with the video item `ep10`'s prefix `ep10.`, yet
the produced item carries only its own video resource (`res.length = 1`,
no `files/<id>` resource): the binary search compares ids to the prefix in
byte order while the support partition is sorted in natural order, where
`ep2.jpg` precedes `ep10.jpg`, so the scan starts at `ep2.jpg` and stops
immediately. -/
theorem c2_binary_search_misses_prefixed_image :
    strStartsWith epVideo10.pfx epImage10.id = true
    ∧ epImage10.fileType = FileType.image
    ∧ (browseLists [epVideo10, epImage10, epImage2]).2.2.map Entry.id =
        ["ep2.jpg", "ep10.jpg"]
    ∧ (callDlnaBrowse "http://h" [epVideo10, epImage10, epImage2]).map
        (fun r => r.result.items.map (fun i => i.res.length)) = some [1] := by
  decide

end Rustymedia
